import Mathlib

/-!
Verification of the evaluation and scoring core of the `llm_reasoning_project`
benchmark: answer extraction (`tasks/math_reasoning.py`, `tasks/logic_reasoning.py`),
correctness judging, battery execution, and leaderboard aggregation
(`src/evaluator.py`).  Python data is modelled shallowly: strings as `String`
(ASCII fragment), floats as exact rationals `ℚ`, dictionaries as structures
holding `Option` fields for the keys the code reads.
-/

namespace LlmBench

/-! ### Character classes of Python's `re` module (ASCII fragment)

The benchmark feeds ASCII question/answer text, so `\w` and `\d` are modelled
on their ASCII parts: `\w` is a letter, digit or underscore; `\d` is `0`-`9`. -/

/-- ASCII word character, the `\w` class used by the `\b` anchors. -/
def isWordChar (c : Char) : Bool := c.isAlphanum || c = '_'

/-- Word-ness of the first character of `cs`; `false` at end of text
(Python's `\b` treats both ends of the string as non-word context). -/
def headIsWord (cs : List Char) : Bool :=
  match cs with
  | [] => false
  | c :: _ => isWordChar c

/-- Length of the maximal run of ASCII digits at the head of `cs`
(a greedy `\d+` or `\d*`). -/
def digitRun (cs : List Char) : Nat := (cs.takeWhile Char.isDigit).length

/-! ### `re.findall(r'\b\d+\.?\d*\b', text)` — the math extractor's scanner

`MathReasoningTask.extract_answer` collects every match of
`\b\d+\.?\d*\b`.  `mathMatchLen prevW cs` is the length of the match the
backtracking engine produces at the current position (`prevW` is the
word-ness of the preceding character), or `none`.  The case analysis is the
backtracking order of the pattern: `\d*` gives back characters first, then
`\.?`, then `\d+`; interior positions of a digit run never carry a word
boundary, and giving back `\d+` digits can never make the final `\b` succeed,
which reduces the search to the cases below. -/

/-- Match length of `\b\d+\.?\d*\b` at the current position, `none` if the
engine fails here.  `prevW` is the word-ness of the previous character. -/
def mathMatchLen (prevW : Bool) (cs : List Char) : Option Nat :=
  if prevW then none
  else
    let a := digitRun cs
    if a = 0 then none
    else
      match cs.drop a with
      | '.' :: rest2 =>
        let b := digitRun rest2
        if 0 < b then
          if headIsWord (rest2.drop b) then some (a + 1) else some (a + 1 + b)
        else
          if headIsWord rest2 then some (a + 1) else some a
      | rest => if headIsWord rest then none else some a

/-- Match length of `\b\d+\b` at the current position (the logic extractor's
number rule): a digit run that both starts and ends at a word boundary. -/
def numMatchLen (prevW : Bool) (cs : List Char) : Option Nat :=
  if prevW then none
  else
    let a := digitRun cs
    if a = 0 then none
    else if headIsWord (cs.drop a) then none else some a

/-- Modelled from the spec: match length of the claim's bare number pattern
`\d+\.?\d*` (digits with an optional fractional part, no word-boundary
anchors), used to state the extraction claim in exactly the spec's words. -/
def nbMatchLen (_prevW : Bool) (cs : List Char) : Option Nat :=
  let a := digitRun cs
  if a = 0 then none
  else
    match cs.drop a with
    | '.' :: rest2 => some (a + 1 + digitRun rest2)
    | _ => some a

/-- Generic `re.findall` scanner for a pattern given by its match-length
function: try a match at every position, emit it and resume after its end,
otherwise advance one character.  `fuel` bounds the recursion; every step
consumes at least one character, so `cs.length` fuel is always enough. -/
def reScan (matchLen : Bool → List Char → Option Nat) :
    Nat → Bool → List Char → List (List Char)
  | 0, _, _ => []
  | _ + 1, _, [] => []
  | fuel + 1, prevW, c :: cs =>
    match matchLen prevW (c :: cs) with
    | some n =>
      let m := (c :: cs).take n
      let nextW := match m.getLast? with
        | some d => isWordChar d
        | none => prevW
      m :: reScan matchLen fuel nextW ((c :: cs).drop n)
    | none => reScan matchLen fuel (isWordChar c) cs

/-- The call `re.findall(r'\b\d+\.?\d*\b', text)`, as a list of matched strings. -/
def mathFindall (text : String) : List String :=
  (reScan mathMatchLen text.data.length false text.data).map String.mk

/-- The call `re.findall(r'\b\d+\b', text)`, as a list of matched strings. -/
def numFindall (text : String) : List String :=
  (reScan numMatchLen text.data.length false text.data).map String.mk

/-- Modelled from the spec: `findall` of the claim's anchor-free number
pattern `\d+\.?\d*`. -/
def nbFindall (text : String) : List String :=
  (reScan nbMatchLen text.data.length false text.data).map String.mk

/-- Python's `s.rstrip('.')`: remove every trailing `'.'`. -/
def pyRstripDot (s : String) : String :=
  String.mk ((s.data.reverse.dropWhile (fun c => c = '.')).reverse)

/-! ### Python scalar helpers: `str.lower`, `str.strip`, `float(...)` -/

/-- Python `str.lower()` on ASCII text. -/
def pyLower (s : String) : String := String.mk (s.data.map Char.toLower)

/-- ASCII whitespace stripped by Python's `str.strip()`. -/
def pyIsSpace (c : Char) : Bool :=
  c = ' ' || c = '\t' || c = '\n' || c = '\x0d' || c = '\x0b' || c = '\x0c'

/-- Python `str.strip()`: drop leading and trailing whitespace. -/
def pyStrip (s : String) : String :=
  String.mk (((s.data.dropWhile pyIsSpace).reverse.dropWhile pyIsSpace).reverse)

/-- Numeric value of a digit list read in base 10. -/
def digitsVal (ds : List Char) : Nat :=
  ds.foldl (fun acc c => 10 * acc + (c.toNat - '0'.toNat)) 0

/-- Parse an optional sign, returning the sign and the remaining characters. -/
def parseSign (cs : List Char) : Int × List Char :=
  match cs with
  | '+' :: rest => (1, rest)
  | '-' :: rest => (-1, rest)
  | _ => (1, cs)

/-- Parse the optional exponent suffix `([eE][+-]?\d+)?` and require the end
of input, returning the exponent.  `none` means the string is rejected. -/
def parseExpEnd (cs : List Char) : Option Int :=
  match cs with
  | [] => some 0
  | e :: rest =>
    if e = 'e' || e = 'E' then
      let (sgn, rest2) := parseSign rest
      let d := digitRun rest2
      if 0 < d ∧ rest2.drop d = [] then some (sgn * (digitsVal (rest2.take d) : Int))
      else none
    else none

/-- Python `float(s)` for finite decimal literals, modelled exactly over `ℚ`:
optional surrounding whitespace, optional sign, then `\d+(\.\d*)?`, `\.\d+`
or `\d+\.?`, with an optional decimal exponent.  `inf`/`nan` forms and
digit-group underscores, which the benchmark never feeds it, are outside the
model (they are rejected here), and the final rounding to a 64-bit float is
dropped: on the short decimal strings this program compares, two literals
round to the same float exactly when they denote the same rational. -/
def pyFloat? (s : String) : Option ℚ :=
  let cs := (pyStrip s).data
  let (sgn, cs1) := parseSign cs
  let a := digitRun cs1
  let ip : ℚ := (digitsVal (cs1.take a) : ℚ)
  match cs1.drop a with
  | '.' :: rest2 =>
    let b := digitRun rest2
    if a = 0 ∧ b = 0 then none
    else
      (parseExpEnd (rest2.drop b)).map fun ex =>
        (sgn : ℚ) * (ip + (digitsVal (rest2.take b) : ℚ) / ((10 : ℚ) ^ b)) *
          ((10 : ℚ) ^ ex)
  | rest =>
    if a = 0 then none
    else (parseExpEnd rest).map fun ex => (sgn : ℚ) * ip * ((10 : ℚ) ^ ex)

/-- Python's `sub in hay` substring containment, on character lists. -/
def containsSub (hay sub : List Char) : Bool :=
  match hay with
  | [] => sub.isEmpty
  | c :: t => sub.isPrefixOf (c :: t) || containsSub t sub

/-- Python's `sub in s` substring containment on strings. -/
def hasSub (s sub : String) : Bool := containsSub s.data sub.data

/-! ### Data model of the two task batteries -/

/-- One battery question: the `{"id", "question", "answer", "difficulty"}`
dictionaries of `self.tasks`. -/
structure TaskItem where
  id : Nat
  question : String
  answer : String
  difficulty : String
  deriving DecidableEq, Repr, Inhabited

/-- One per-question verdict, as appended to `results` by `run_task`. -/
structure QuestionResult where
  task_id : Nat
  question : String
  correct_answer : String
  model_response : String
  extracted_answer : String
  is_correct : Bool
  difficulty : String
  deriving DecidableEq, Repr, Inhabited

/-- The dictionary `run_task` returns. -/
structure BatteryResult where
  task_type : String
  total_questions : Nat
  correct_answers : Nat
  score : ℚ
  details : List QuestionResult
  deriving DecidableEq, Repr, Inhabited

/-- The generation collaborator `model_loader.generate_text`, as a function of
`(prompt, max_length, temperature, num_return_sequences)`; it returns a list
of generated strings, empty on failure. -/
abbrev Gen := String → Nat → ℚ → Nat → List String

/-- The fixed prompt template `"Question: {question}\nAnswer:"`. -/
def promptFor (task : TaskItem) : String :=
  "Question: " ++ task.question ++ "\nAnswer:"

/-- The sentinel `QuestionResult` recorded when generation yields no
responses. -/
def errorResult (task : TaskItem) : QuestionResult :=
  { task_id := task.id, question := task.question,
    correct_answer := task.answer,
    model_response := "ERROR: No response generated",
    extracted_answer := "", is_correct := false,
    difficulty := task.difficulty }

/-- The result recorded for one question when at least one response is
generated: only the first response is used. -/
def answeredResult (judge : String → String → Bool)
    (extractor : String → String) (response : String)
    (task : TaskItem) : QuestionResult :=
  { task_id := task.id, question := task.question,
    correct_answer := task.answer, model_response := response,
    extracted_answer := extractor response,
    is_correct := judge response task.answer,
    difficulty := task.difficulty }

/-- One iteration of `run_task`'s loop (both task files, lines 135-175 /
159-199): generate with `max_length=50, temperature=0.3,
num_return_sequences=1`, append this question's result and bump
`correct_count` when the answer is judged correct. -/
def runStep (judge : String → String → Bool) (extractor : String → String)
    (gen : Gen) (acc : List QuestionResult × Nat)
    (task : TaskItem) : List QuestionResult × Nat :=
  match gen (promptFor task) 50 ((3 : ℚ) / 10) 1 with
  | [] => (acc.1 ++ [errorResult task], acc.2)
  | response :: _ =>
    let r := answeredResult judge extractor response task
    (acc.1 ++ [r], acc.2 + if r.is_correct then 1 else 0)

/-- The shape of `run_task`, common to both task files: run the loop over the fixed
battery, then assemble the result dictionary with
`score = (correct_count / len(self.tasks)) * 100`. -/
def run_battery (judge : String → String → Bool)
    (extractor : String → String) (task_type : String)
    (tasks : List TaskItem) (gen : Gen) : BatteryResult :=
  let acc := tasks.foldl (runStep judge extractor gen) ([], 0)
  { task_type := task_type, total_questions := tasks.length,
    correct_answers := acc.2,
    score := ((acc.2 : ℚ) / (tasks.length : ℚ)) * 100,
    details := acc.1 }

namespace MathReasoningTask

/-- The ten fixed math questions (`math_reasoning.py` lines 17-78). -/
def tasks : List TaskItem := [
  { id := 1, question := "What is 15 + 27?", answer := "42",
    difficulty := "easy" },
  { id := 2, question := "If you have 3 apples and buy 5 more, how many apples do you have in total?",
    answer := "8", difficulty := "easy" },
  { id := 3, question := "What is 12 * 3?", answer := "36",
    difficulty := "easy" },
  { id := 4, question := "If a book costs $15 and you have $50, how much money will you have left after buying the book?",
    answer := "35", difficulty := "medium" },
  { id := 5, question := "What is 100 - 47?", answer := "53",
    difficulty := "easy" },
  { id := 6, question := "If you divide 48 by 6, what do you get?",
    answer := "8", difficulty := "medium" },
  { id := 7, question := "A rectangle has a length of 8 and width of 5. What is its area?",
    answer := "40", difficulty := "medium" },
  { id := 8, question := "What is 7 + 8 + 5?", answer := "20",
    difficulty := "easy" },
  { id := 9, question := "If a train travels 60 miles in 2 hours, what is its speed in miles per hour?",
    answer := "30", difficulty := "medium" },
  { id := 10, question := "What is 25 * 4?", answer := "100",
    difficulty := "easy" }]

/-- The function `extract_answer` (`math_reasoning.py` lines 80-97): all matches of
`\b\d+\.?\d*\b`; the last one with trailing dots stripped, else `""`. -/
def extract_answer (text : String) : String :=
  let numbers := mathFindall text
  if numbers ≠ [] then pyRstripDot (numbers.getLastD (""))
  else ""

/-- The comparison at the heart of `evaluate_response` (`math_reasoning.py`
lines 112-118): try `float` on both strings and compare numerically; if
either parse raises (`except ValueError`), fall back to case-insensitive,
whitespace-trimmed string equality. -/
def judgeAnswer (extracted correct_answer : String) : Bool :=
  match pyFloat? extracted, pyFloat? correct_answer with
  | some x, some y => x == y
  | _, _ => pyStrip (pyLower extracted) == pyStrip (pyLower correct_answer)

/-- The function `evaluate_response`: extract from the raw response, then judge. -/
def evaluate_response (response correct_answer : String) : Bool :=
  judgeAnswer (extract_answer response) correct_answer

/-- The function `run_task` of `math_reasoning.py` (lines 120-185). -/
def run_task (gen : Gen) : BatteryResult :=
  run_battery evaluate_response extract_answer ("math_reasoning") tasks gen

end MathReasoningTask

namespace LogicReasoningTask

/-- The ten fixed logic questions (`logic_reasoning.py` lines 17-78). -/
def tasks : List TaskItem := [
  { id := 1, question := "If all cats are animals and Fluffy is a cat, is Fluffy an animal? Answer yes or no.",
    answer := "yes", difficulty := "easy" },
  { id := 2, question := "True or False: If it is raining, the ground is wet. It is raining. Therefore, the ground is wet.",
    answer := "true", difficulty := "easy" },
  { id := 3, question := "Which is heavier: a pound of feathers or a pound of bricks? Answer: feathers, bricks, or same.",
    answer := "same", difficulty := "medium" },
  { id := 4, question := "If A is taller than B, and B is taller than C, is A taller than C? Answer yes or no.",
    answer := "yes", difficulty := "easy" },
  { id := 5, question := "Is the following statement logical? \x27All birds can fly. Penguins are birds. Therefore penguins can fly.\x27 Answer yes or no.",
    answer := "no", difficulty := "medium" },
  { id := 6, question := "If you flip a fair coin twice, can you get two heads in a row? Answer yes or no.",
    answer := "yes", difficulty := "easy" },
  { id := 7, question := "True or False: If some dogs are brown and Max is brown, then Max is definitely a dog.",
    answer := "false", difficulty := "medium" },
  { id := 8, question := "Which comes next in the pattern: 2, 4, 6, 8, ?",
    answer := "10", difficulty := "easy" },
  { id := 9, question := "If today is Monday, what day will it be in 7 days? Answer with the day name.",
    answer := "monday", difficulty := "easy" },
  { id := 10, question := "Is it possible for something to be both completely red and completely blue at the same time? Answer yes or no.",
    answer := "no", difficulty := "easy" }]

/-- The weekday list scanned by the day rule, in source order. -/
def days : List String :=
  ["monday", "tuesday", "wednesday", "thursday", "friday", "saturday",
   "sunday"]

/-- The function `extract_answer` (`logic_reasoning.py` lines 80-126): the ordered cascade
of case-insensitive substring rules.  The `question_type` parameter of the
Python signature is unused there and dropped here. -/
def extract_answer (text : String) : String :=
  let text_lower := pyLower text
  if hasSub text_lower ("yes") then "yes"
  else if hasSub text_lower ("no") then "no"
  else if hasSub text_lower ("true") then "true"
  else if hasSub text_lower ("false") then "false"
  else if hasSub text_lower ("same") || hasSub text_lower ("equal") then "same"
  else
    match days.find? (fun day => hasSub text_lower day) with
    | some day => day
    | none =>
      let numbers := numFindall text
      if numbers ≠ [] then numbers.getLastD ("")
      else if hasSub text_lower ("feather") then "feathers"
      else if hasSub text_lower ("brick") then "bricks"
      else ""

/-- The function `evaluate_response` (`logic_reasoning.py` lines 128-142): normalized
string comparison of the extracted and expected answers. -/
def evaluate_response (response correct_answer : String) : Bool :=
  pyStrip (pyLower (extract_answer response)) ==
    pyStrip (pyLower correct_answer)

/-- The function `run_task` of `logic_reasoning.py` (lines 144-209). -/
def run_task (gen : Gen) : BatteryResult :=
  run_battery evaluate_response extract_answer ("logic_reasoning") tasks gen

end LogicReasoningTask

/-! ### The `Evaluator` aggregator (`src/evaluator.py`) -/

/-- The key `add_result` reads from `model_info` (`.get("parameters", 0)`);
`none` models a missing key. -/
structure ModelInfoDict where
  parameters : Option Nat
  deriving DecidableEq, Repr

/-- The keys `add_result` reads from a task result dictionary
(`.get("score", 0)`, `.get("correct_answers", 0)`,
`.get("total_questions", 0)`); `none` models a missing key. -/
structure TaskResultDict where
  score : Option ℚ
  correct_answers : Option Nat
  total_questions : Option Nat
  deriving DecidableEq, Repr

/-- One entry of `self.results`: the flat dictionary built by `add_result`
(`evaluator.py` lines 38-51).  The `datetime.now().isoformat()` timestamp is
supplied as a parameter. -/
structure EvalRecord where
  model_name : String
  parameters : Nat
  math_score : ℚ
  math_correct : Nat
  math_total : Nat
  logic_score : ℚ
  logic_correct : Nat
  logic_total : Nat
  timestamp : String
  overall_score : ℚ
  deriving DecidableEq, Repr, Inhabited

namespace Evaluator

/-- The record `add_result` builds: every field read with `.get(key, 0)`
defaults to `0` when the key is missing, and `overall_score` is the average
of the two (possibly defaulted) task scores. -/
def mkRecord (model_name : String) (model_info : ModelInfoDict)
    (math_results logic_results : TaskResultDict)
    (timestamp : String) : EvalRecord :=
  { model_name := model_name,
    parameters := model_info.parameters.getD 0,
    math_score := math_results.score.getD 0,
    math_correct := math_results.correct_answers.getD 0,
    math_total := math_results.total_questions.getD 0,
    logic_score := logic_results.score.getD 0,
    logic_correct := logic_results.correct_answers.getD 0,
    logic_total := logic_results.total_questions.getD 0,
    timestamp := timestamp,
    overall_score :=
      (math_results.score.getD 0 + logic_results.score.getD 0) / 2 }

/-- The function `add_result` (`evaluator.py` lines 22-54): append the new record to
`self.results`. -/
def add_result (results : List EvalRecord) (model_name : String)
    (model_info : ModelInfoDict) (math_results logic_results : TaskResultDict)
    (timestamp : String) : List EvalRecord :=
  results ++ [mkRecord model_name model_info math_results logic_results timestamp]

/-- The comparison `sort_values("overall_score")` uses on rows paired with
their original index: ascending order of the key column. -/
def keyLE (p q : Nat × EvalRecord) : Prop :=
  p.2.overall_score ≤ q.2.overall_score

instance : DecidableRel keyLE :=
  fun p q => inferInstanceAs (Decidable (p.2.overall_score ≤ q.2.overall_score))

instance : IsTotal (Nat × EvalRecord) keyLE :=
  ⟨fun p q => le_total p.2.overall_score q.2.overall_score⟩

instance : IsTrans (Nat × EvalRecord) keyLE :=
  ⟨fun _ _ _ h h2 => le_trans h h2⟩

/-- The sort `df.sort_values("overall_score", ascending=False)` on the rows
paired with their original index (the pandas row label).  pandas
(`nargsort`) implements a descending sort by reversing the rows, running
`numpy`'s ascending `argsort` and reversing the result.  The code leaves the
default `kind='quicksort'` (`numpy`'s introsort), which runs its stable
insertion sort only below 17 rows; this model adopts the stable
`List.insertionSort` kernel and is therefore faithful only for at most 16
records.  At 17 or more records the real kernel's partitioning step can
permute equal-score rows, so the program's tie order diverges from this
model (and from the spec's guaranteed-stable requirement) there. -/
def sortDescByOverall (rows : List (Nat × EvalRecord)) :
    List (Nat × EvalRecord) :=
  (List.insertionSort keyLE rows.reverse).reverse

/-- The function `generate_leaderboard` (`evaluator.py` lines 56-76): an empty `DataFrame`
for no results, otherwise the records sorted descending by `overall_score`
with a 1-based `rank` column inserted.  Each output row is
`(rank, original insertion index, record)`. -/
def generate_leaderboard (results : List EvalRecord) :
    List (Nat × Nat × EvalRecord) :=
  if results = [] then []
  else
    (sortDescByOverall results.enum).enum.map
      (fun kp => (kp.1 + 1, kp.2.1, kp.2.2))

/-- The summary dictionary of `get_summary` (`evaluator.py` lines 184-195). -/
structure Summary where
  total_models : Nat
  avg_overall_score : ℚ
  avg_math_score : ℚ
  avg_logic_score : ℚ
  best_model : String
  best_overall_score : ℚ
  best_math_model : String
  best_math_score : ℚ
  best_logic_model : String
  best_logic_score : ℚ
  deriving DecidableEq, Repr

/-- The lookup `df.loc[df[col].idxmax()]`: the first record attaining the column's
maximum. -/
def firstMaxRecord (f : EvalRecord → ℚ) (results : List EvalRecord) :
    EvalRecord :=
  (results.find? (fun r => results.all (fun q => f q ≤ f r))).getD default

/-- The column mean `df[col].mean()`. -/
def colMean (f : EvalRecord → ℚ) (results : List EvalRecord) : ℚ :=
  (results.map f).sum / (results.length : ℚ)

/-- The function `get_summary` (`evaluator.py` lines 172-195): the empty dictionary
(`none`) when there are no results, otherwise the summary statistics. -/
def get_summary (results : List EvalRecord) : Option Summary :=
  if results = [] then none
  else some
    { total_models := results.length,
      avg_overall_score := colMean (fun r => r.overall_score) results,
      avg_math_score := colMean (fun r => r.math_score) results,
      avg_logic_score := colMean (fun r => r.logic_score) results,
      best_model :=
        (firstMaxRecord (fun r => r.overall_score) results).model_name,
      best_overall_score :=
        (firstMaxRecord (fun r => r.overall_score) results).overall_score,
      best_math_model :=
        (firstMaxRecord (fun r => r.math_score) results).model_name,
      best_math_score :=
        (firstMaxRecord (fun r => r.math_score) results).math_score,
      best_logic_model :=
        (firstMaxRecord (fun r => r.logic_score) results).model_name,
      best_logic_score :=
        (firstMaxRecord (fun r => r.logic_score) results).logic_score }

end Evaluator

/-! ### Definitions used only to state the claims -/

/-- The per-question outcome `run_task`'s loop records for one task:
the error sentinel when generation returns nothing, otherwise the judged
first response. -/
def questionOutcome (judge : String → String → Bool)
    (extractor : String → String) (gen : Gen)
    (task : TaskItem) : QuestionResult :=
  match gen (promptFor task) 50 ((3 : ℚ) / 10) 1 with
  | [] => errorResult task
  | response :: _ => answeredResult judge extractor response task

/-- An extraction rule: a trigger on the text and the canonical value it
produces (the value may read the text, as the day and number rules do). -/
abbrev LogicRule := (String → Bool) × (String → String)

/-- First-match-wins evaluation of an ordered rule list; the empty string
when no trigger fires. -/
def applyRules : List LogicRule → String → String
  | [], _ => ""
  | rule :: rest, text =>
    if rule.1 text then rule.2 text else applyRules rest text

/-- Modelled from the spec: the logic extractor's cascade as an explicit
ordered rule list, in the spec's priority order — yes, no, true, false,
same/equal, weekday names, last number, feather, brick. -/
def logicRules : List LogicRule := [
  (fun t => hasSub (pyLower t) ("yes"), fun _ => "yes"),
  (fun t => hasSub (pyLower t) ("no"), fun _ => "no"),
  (fun t => hasSub (pyLower t) ("true"), fun _ => "true"),
  (fun t => hasSub (pyLower t) ("false"), fun _ => "false"),
  (fun t => hasSub (pyLower t) ("same") || hasSub (pyLower t) ("equal"),
   fun _ => "same"),
  (fun t => (LogicReasoningTask.days.find?
      (fun day => hasSub (pyLower t) day)).isSome,
   fun t => (LogicReasoningTask.days.find?
      (fun day => hasSub (pyLower t) day)).getD ("")),
  (fun t => !(numFindall t).isEmpty, fun t => (numFindall t).getLastD ("")),
  (fun t => hasSub (pyLower t) ("feather"), fun _ => "feathers"),
  (fun t => hasSub (pyLower t) ("brick"), fun _ => "bricks")]

/-- Modelled from the spec: the extractor described by the claim's words —
the matches of the bare number pattern `\d+\.?\d*` with no word-boundary
anchors, the last one in reading order with trailing dots stripped, or `""`
when there is none. -/
def specMathExtract (text : String) : String :=
  let numbers := nbFindall text
  if numbers ≠ [] then pyRstripDot (numbers.getLastD (""))
  else ""

/-- The canonical output vocabulary of the logic extractor: empty, one of the
fixed lowercase tokens, a lowercase weekday, or a nonempty digit string. -/
def logicVocab (s : String) : Bool :=
  s == "" ||
    (["yes", "no", "true", "false", "same", "monday", "tuesday",
      "wednesday", "thursday", "friday", "saturday", "sunday", "feathers",
      "bricks"].contains s) ||
    (!s.data.isEmpty && s.data.all Char.isDigit)

/-- Shape of a string the math scanner may emit: nonempty, beginning with a
digit, made of digits and at most one dot. -/
def mathTokenShape (s : String) : Bool :=
  (match s.data with
   | [] => false
   | c :: _ => c.isDigit) &&
    s.data.all (fun c => c.isDigit || c = '.') &&
    decide (s.data.countP (fun c => c = '.') ≤ 1)

/-- The leaderboard order the claim describes on `(insertion index, record)`
rows: strictly greater `overall_score` first, ties by insertion index. -/
def rankedBefore (a b : Nat × EvalRecord) : Prop :=
  b.2.overall_score < a.2.overall_score ∨
    (a.2.overall_score = b.2.overall_score ∧ a.1 < b.1)

/-- A concrete record with the given name and score in both batteries
(so `overall_score` is the given score), for the ranking example. -/
def exampleRecord (name : String) (s : ℚ) : EvalRecord :=
  { model_name := name, parameters := 0, math_score := s, math_correct := 0,
    math_total := 10, logic_score := s, logic_correct := 0, logic_total := 10,
    timestamp := "t", overall_score := s }

/-- The first math question, used in the error-path witness. -/
def firstMathTask : TaskItem :=
  { id := 1, question := "What is 15 + 27?", answer := "42",
    difficulty := "easy" }

/-! ## Battery runner lemmas -/

/-- Each loop iteration appends this question's outcome and counts it when
correct (the error sentinel is never correct, so it adds zero). -/
theorem runStep_eq (judge : String → String → Bool)
    (extractor : String → String) (gen : Gen)
    (acc : List QuestionResult × Nat) (task : TaskItem) :
    runStep judge extractor gen acc task =
      (acc.1 ++ [questionOutcome judge extractor gen task],
        acc.2 +
          if (questionOutcome judge extractor gen task).is_correct then 1
          else 0) := by
  unfold runStep questionOutcome
  cases gen (promptFor task) 50 ((3 : ℚ) / 10) 1 with
  | nil => simp [errorResult]
  | cons r rs => rfl

/-- The loop of `run_task` maps `questionOutcome` over the battery and counts
the correct outcomes. -/
theorem runLoop_eq (judge : String → String → Bool)
    (extractor : String → String) (gen : Gen) (tasks : List TaskItem) :
    ∀ acc, tasks.foldl (runStep judge extractor gen) acc =
      (acc.1 ++ tasks.map (questionOutcome judge extractor gen),
        acc.2 + (tasks.map (questionOutcome judge extractor gen)).countP
          (fun r => r.is_correct)) := by
  induction tasks with
  | nil => intro acc; simp
  | cons t ts ih =>
    intro acc
    rw [List.foldl_cons, runStep_eq, ih]
    by_cases hc : (questionOutcome judge extractor gen t).is_correct <;>
      (simp [List.countP_cons, hc]; try omega)

/-- Closed form of `run_battery`. -/
theorem run_battery_eq (judge : String → String → Bool)
    (extractor : String → String) (ttype : String)
    (tasks : List TaskItem) (gen : Gen) :
    run_battery judge extractor ttype tasks gen =
      { task_type := ttype,
        total_questions := tasks.length,
        correct_answers :=
          (tasks.map (questionOutcome judge extractor gen)).countP
            (fun r => r.is_correct),
        score :=
          (((tasks.map (questionOutcome judge extractor gen)).countP
              (fun r => r.is_correct) : ℚ) / (tasks.length : ℚ)) * 100,
        details := tasks.map (questionOutcome judge extractor gen) } := by
  unfold run_battery
  rw [runLoop_eq]
  simp

/-- The score shape `0 ≤ (c / n) * 100 ≤ 100` whenever `c ≤ n`. -/
theorem score_bounds (c n : Nat) (h : c ≤ n) :
    0 ≤ ((c : ℚ) / (n : ℚ)) * 100 ∧ ((c : ℚ) / (n : ℚ)) * 100 ≤ 100 := by
  constructor
  · positivity
  · rcases Nat.eq_zero_or_pos n with hn | hn
    · subst hn
      have hc : c = 0 := Nat.le_zero.mp h
      simp [hc]
    · have hn' : (0 : ℚ) < (n : ℚ) := by exact_mod_cast hn
      have h1 : (c : ℚ) / (n : ℚ) ≤ 1 := by
        rw [div_le_one hn']
        exact_mod_cast h
      calc ((c : ℚ) / (n : ℚ)) * 100 ≤ 1 * 100 := by
            exact mul_le_mul_of_nonneg_right h1 (by norm_num)
        _ = 100 := by norm_num

/-- C2: for every model and sequence of generation outcomes, both batteries
return a `BatteryResult` whose `correct_count` is the number of correct
details, whose `total_questions` equals the number of details and the fixed
battery size 10, and whose score is `100 * correct / total`, lying in
`[0, 100]`. -/
theorem battery_result_invariants :
    ∀ genM genL : Gen,
      ((MathReasoningTask.run_task genM).correct_answers =
          (MathReasoningTask.run_task genM).details.countP
            (fun r => r.is_correct) ∧
        (MathReasoningTask.run_task genM).total_questions =
          (MathReasoningTask.run_task genM).details.length ∧
        (MathReasoningTask.run_task genM).total_questions = 10 ∧
        (MathReasoningTask.run_task genM).score =
          100 * ((MathReasoningTask.run_task genM).correct_answers : ℚ) /
            ((MathReasoningTask.run_task genM).total_questions : ℚ) ∧
        0 ≤ (MathReasoningTask.run_task genM).score ∧
        (MathReasoningTask.run_task genM).score ≤ 100) ∧
      ((LogicReasoningTask.run_task genL).correct_answers =
          (LogicReasoningTask.run_task genL).details.countP
            (fun r => r.is_correct) ∧
        (LogicReasoningTask.run_task genL).total_questions =
          (LogicReasoningTask.run_task genL).details.length ∧
        (LogicReasoningTask.run_task genL).total_questions = 10 ∧
        (LogicReasoningTask.run_task genL).score =
          100 * ((LogicReasoningTask.run_task genL).correct_answers : ℚ) /
            ((LogicReasoningTask.run_task genL).total_questions : ℚ) ∧
        0 ≤ (LogicReasoningTask.run_task genL).score ∧
        (LogicReasoningTask.run_task genL).score ≤ 100) := by
  have main : ∀ (judge : String → String → Bool)
      (extractor : String → String) (ttype : String)
      (tasks : List TaskItem) (gen : Gen),
      (run_battery judge extractor ttype tasks gen).correct_answers =
          (run_battery judge extractor ttype tasks gen).details.countP
            (fun r => r.is_correct) ∧
        (run_battery judge extractor ttype tasks gen).total_questions =
          (run_battery judge extractor ttype tasks gen).details.length ∧
        (run_battery judge extractor ttype tasks gen).total_questions =
          tasks.length ∧
        (run_battery judge extractor ttype tasks gen).score =
          100 * ((run_battery judge extractor ttype tasks gen).correct_answers : ℚ) /
            ((run_battery judge extractor ttype tasks gen).total_questions : ℚ) ∧
        0 ≤ (run_battery judge extractor ttype tasks gen).score ∧
        (run_battery judge extractor ttype tasks gen).score ≤ 100 := by
    intro judge extractor ttype tasks gen
    rw [run_battery_eq]
    refine ⟨rfl, (List.length_map tasks _).symm, rfl, by ring, ?_, ?_⟩
    · exact (score_bounds _ _
        ((List.countP_le_length _).trans_eq (List.length_map tasks _))).1
    · exact (score_bounds _ _
        ((List.countP_le_length _).trans_eq (List.length_map tasks _))).2
  intro genM genL
  constructor
  · have h := main MathReasoningTask.evaluate_response
      MathReasoningTask.extract_answer ("math_reasoning")
      MathReasoningTask.tasks genM
    exact ⟨h.1, h.2.1, h.2.2.1.trans (by decide), h.2.2.2.1, h.2.2.2.2.1,
      h.2.2.2.2.2⟩
  · have h := main LogicReasoningTask.evaluate_response
      LogicReasoningTask.extract_answer ("logic_reasoning")
      LogicReasoningTask.tasks genL
    exact ⟨h.1, h.2.1, h.2.2.1.trans (by decide), h.2.2.2.1, h.2.2.2.2.1,
      h.2.2.2.2.2⟩

/-- Generic form of the error path: when generation returns no responses for
question `i`, the recorded detail at `i` is the error sentinel. -/
theorem run_battery_error_detail (judge : String → String → Bool)
    (extractor : String → String) (ttype : String) (tasks : List TaskItem)
    (gen : Gen) (i : Nat) (task : TaskItem) (hi : tasks[i]? = some task)
    (hgen : gen (promptFor task) 50 ((3 : ℚ) / 10) 1 = []) :
    (run_battery judge extractor ttype tasks gen).details[i]? =
      some (errorResult task) := by
  rw [run_battery_eq]
  show (tasks.map (questionOutcome judge extractor gen))[i]? = _
  rw [List.getElem?_map, hi]
  simp [questionOutcome, hgen]

/-- C6: a question whose generation yields no responses is recorded as the
sentinel `"ERROR: No response generated"` result — empty extraction,
`is_correct = false` — and the battery still records every question. -/
theorem empty_generation_records_sentinel :
    ∀ (genM genL : Gen) (i : Nat) (taskM taskL : TaskItem),
      (MathReasoningTask.tasks[i]? = some taskM →
        genM (promptFor taskM) 50 ((3 : ℚ) / 10) 1 = [] →
        (MathReasoningTask.run_task genM).details[i]? =
          some (errorResult taskM)) ∧
      (LogicReasoningTask.tasks[i]? = some taskL →
        genL (promptFor taskL) 50 ((3 : ℚ) / 10) 1 = [] →
        (LogicReasoningTask.run_task genL).details[i]? =
          some (errorResult taskL)) ∧
      (errorResult taskM).model_response = "ERROR: No response generated" ∧
      (errorResult taskM).extracted_answer = "" ∧
      (errorResult taskM).is_correct = false ∧
      (MathReasoningTask.run_task genM).details.length =
        MathReasoningTask.tasks.length ∧
      (LogicReasoningTask.run_task genL).details.length =
        LogicReasoningTask.tasks.length := by
  intro genM genL i taskM taskL
  refine ⟨run_battery_error_detail _ _ _ _ genM i taskM,
    run_battery_error_detail _ _ _ _ genL i taskL, rfl, rfl, rfl, ?_, ?_⟩
  · unfold MathReasoningTask.run_task
    rw [run_battery_eq]
    exact List.length_map _ _
  · unfold LogicReasoningTask.run_task
    rw [run_battery_eq]
    exact List.length_map _ _

/-- Witness for C6: a generator that always fails yields the sentinel at
question 0 of both batteries, and all ten questions are still recorded. -/
theorem empty_generation_records_sentinel_witness :
    (MathReasoningTask.run_task (fun _ _ _ _ => [])).details[0]? =
        some (errorResult firstMathTask) ∧
      (MathReasoningTask.run_task (fun _ _ _ _ => [])).details.length =
        MathReasoningTask.tasks.length := by
  have h := empty_generation_records_sentinel (fun _ _ _ _ => [])
    (fun _ _ _ _ => []) 0 firstMathTask firstMathTask
  exact ⟨h.1 (by decide) rfl, h.2.2.2.2.2.1⟩

/-! ## Aggregator claims -/

/-- C7: `add_result` appends exactly one record, leaving earlier records
untouched, and its `overall_score` is the arithmetic mean of the recorded
math and logic scores. -/
theorem add_result_appends_mean_record :
    ∀ (results : List EvalRecord) (model_name : String)
      (model_info : ModelInfoDict)
      (math_results logic_results : TaskResultDict) (timestamp : String),
      Evaluator.add_result results model_name model_info math_results
          logic_results timestamp =
        results ++ [Evaluator.mkRecord model_name model_info math_results
          logic_results timestamp] ∧
      (Evaluator.mkRecord model_name model_info math_results logic_results
          timestamp).overall_score =
        ((Evaluator.mkRecord model_name model_info math_results logic_results
            timestamp).math_score +
          (Evaluator.mkRecord model_name model_info math_results
            logic_results timestamp).logic_score) / 2 := by
  intro results model_name model_info math_results logic_results timestamp
  exact ⟨rfl, rfl⟩

/-- C9: missing dictionary keys never fail — each one defaults to `0` in the
appended record, and `overall_score` is computed from the defaulted scores. -/
theorem add_result_defaults_missing_keys :
    ∀ (results : List EvalRecord) (model_name : String)
      (model_info : ModelInfoDict)
      (math_results logic_results : TaskResultDict) (timestamp : String),
      Evaluator.add_result results model_name model_info math_results
          logic_results timestamp =
        results ++ [Evaluator.mkRecord model_name model_info math_results
          logic_results timestamp] ∧
      (model_info.parameters = none →
        (Evaluator.mkRecord model_name model_info math_results logic_results
          timestamp).parameters = 0) ∧
      (math_results.score = none →
        (Evaluator.mkRecord model_name model_info math_results logic_results
          timestamp).math_score = 0) ∧
      (math_results.correct_answers = none →
        (Evaluator.mkRecord model_name model_info math_results logic_results
          timestamp).math_correct = 0) ∧
      (math_results.total_questions = none →
        (Evaluator.mkRecord model_name model_info math_results logic_results
          timestamp).math_total = 0) ∧
      (logic_results.score = none →
        (Evaluator.mkRecord model_name model_info math_results logic_results
          timestamp).logic_score = 0) ∧
      (logic_results.correct_answers = none →
        (Evaluator.mkRecord model_name model_info math_results logic_results
          timestamp).logic_correct = 0) ∧
      (logic_results.total_questions = none →
        (Evaluator.mkRecord model_name model_info math_results logic_results
          timestamp).logic_total = 0) ∧
      (Evaluator.mkRecord model_name model_info math_results logic_results
          timestamp).overall_score =
        (math_results.score.getD 0 + logic_results.score.getD 0) / 2 := by
  intro results model_name model_info math_results logic_results timestamp
  refine ⟨rfl, ?_, ?_, ?_, ?_, ?_, ?_, ?_, rfl⟩ <;>
    intro h <;> simp [Evaluator.mkRecord, h]

/-- Witness for C9: with every key missing, all defaulted fields are zero. -/
theorem add_result_defaults_missing_keys_witness :
    (Evaluator.mkRecord ("m") { parameters := none }
        { score := none, correct_answers := none, total_questions := none }
        { score := none, correct_answers := none, total_questions := none }
        ("ts")).parameters = 0 ∧
      (Evaluator.mkRecord ("m") { parameters := none }
        { score := none, correct_answers := none, total_questions := none }
        { score := none, correct_answers := none, total_questions := none }
        ("ts")).math_score = 0 := by
  have h := add_result_defaults_missing_keys [] ("m") { parameters := none }
    { score := none, correct_answers := none, total_questions := none }
    { score := none, correct_answers := none, total_questions := none }
    ("ts")
  exact ⟨h.2.1 rfl, h.2.2.1 rfl⟩

/-- C8: with no records added, the leaderboard is empty and the summary is
the empty result; neither operation fails. -/
theorem empty_aggregator_degrades_gracefully :
    Evaluator.generate_leaderboard [] = [] ∧
      Evaluator.get_summary [] = none := by
  exact ⟨rfl, rfl⟩

/-! ## The math correctness judge (C4) -/

/-- Parsing `float("8.0")` gives exactly `8`. -/
theorem pyFloat_eight_decimal : pyFloat? ("8.0") = some 8 := by
  have h : pyFloat? ("8.0") =
      some (((1 : ℤ) : ℚ) *
        (((8 : ℕ) : ℚ) + ((0 : ℕ) : ℚ) / (10 : ℚ) ^ (1 : ℕ)) *
          (10 : ℚ) ^ (0 : ℤ)) := rfl
  rw [h]
  norm_num

/-- Parsing `float("8")` gives exactly `8`. -/
theorem pyFloat_eight : pyFloat? ("8") = some 8 := by
  have h : pyFloat? ("8") =
      some (((1 : ℤ) : ℚ) * ((8 : ℕ) : ℚ) * (10 : ℚ) ^ (0 : ℤ)) := rfl
  rw [h]
  norm_num

/-- C4: the judge compares numerically whenever both strings parse as
(finite decimal) floats, and otherwise falls back to case-insensitive,
whitespace-trimmed string equality; `"8.0"` vs `"8"` is judged correct and
`"eight"` vs `"8"` incorrect. -/
theorem math_judge_numeric_or_string :
    (∀ (e a : String) (x y : ℚ),
        pyFloat? e = some x → pyFloat? a = some y →
        (MathReasoningTask.judgeAnswer e a = true ↔ x = y)) ∧
      (∀ e a : String, pyFloat? e = none ∨ pyFloat? a = none →
        (MathReasoningTask.judgeAnswer e a = true ↔
          pyStrip (pyLower e) = pyStrip (pyLower a))) ∧
      MathReasoningTask.judgeAnswer ("8.0") ("8") = true ∧
      MathReasoningTask.judgeAnswer ("eight") ("8") = false := by
  refine ⟨?_, ?_, ?_, by decide⟩
  case refine_3 =>
    unfold MathReasoningTask.judgeAnswer
    rw [pyFloat_eight_decimal, pyFloat_eight]
    simp
  · intro e a x y hx hy
    unfold MathReasoningTask.judgeAnswer
    rw [hx, hy]
    simp
  · intro e a h
    unfold MathReasoningTask.judgeAnswer
    rcases h with h | h
    · rw [h]
      cases ha : pyFloat? a <;> simp
    · rw [h]
      cases he : pyFloat? e <;> simp

/-- Witness for C4: both branches of the judge at the claim's inputs. -/
theorem math_judge_numeric_or_string_witness :
    (MathReasoningTask.judgeAnswer ("8.0") ("8") = true ↔ (8 : ℚ) = 8) ∧
      (MathReasoningTask.judgeAnswer ("eight") ("8") = true ↔
        pyStrip (pyLower ("eight")) = pyStrip (pyLower ("8"))) := by
  constructor
  · exact math_judge_numeric_or_string.1 ("8.0") ("8") 8 8 pyFloat_eight_decimal
      pyFloat_eight
  · exact math_judge_numeric_or_string.2.1 ("eight") ("8")
      (Or.inl (by decide))

/-! ## The logic extractor cascade (C5, C10) -/

/-- C5: the logic extractor equals the first-match-wins cascade over the
explicit rule list in the fixed priority order — yes, no, true, false,
same/equal, weekdays, last number, feather, brick — and in particular any
text containing `"yes"` case-insensitively (so also any text containing both
`"yes"` and `"no"`) extracts to `"yes"`. -/
theorem logic_extractor_priority_cascade :
    (∀ text : String,
        LogicReasoningTask.extract_answer text = applyRules logicRules text) ∧
      (∀ text : String, hasSub (pyLower text) ("yes") = true →
        LogicReasoningTask.extract_answer text = "yes") := by
  constructor
  · intro t
    unfold LogicReasoningTask.extract_answer
    simp only [logicRules, applyRules]
    cases hd : LogicReasoningTask.days.find?
        (fun day => hasSub (pyLower t) day) <;>
      cases hn : numFindall t <;>
        simp [hd, hn]
  · intro t h
    unfold LogicReasoningTask.extract_answer
    simp [h]

/-- Witness for C5: a text containing both `"yes"` and `"no"` extracts to
`"yes"`. -/
theorem logic_extractor_priority_cascade_witness :
    LogicReasoningTask.extract_answer ("Yes and no") = "yes" := by
  exact logic_extractor_priority_cascade.2 ("Yes and no") (by decide)

/-! ## Scanner shape lemmas -/

/-- Unfolding `digitRun` on a cons. -/
theorem digitRun_cons (c : Char) (t : List Char) :
    digitRun (c :: t) = if c.isDigit then digitRun t + 1 else 0 := by
  unfold digitRun
  by_cases h : c.isDigit <;> simp [List.takeWhile_cons, h]

/-- Taking `digitRun cs` characters takes exactly the leading digit run. -/
theorem take_digitRun (cs : List Char) :
    cs.take (digitRun cs) = cs.takeWhile Char.isDigit := by
  unfold digitRun
  induction cs with
  | nil => rfl
  | cons c t ih =>
    by_cases h : c.isDigit
    · simp [List.takeWhile_cons, h, List.take_succ_cons, ih]
    · simp [List.takeWhile_cons, h]

/-- A nonzero digit run means the text starts with a digit. -/
theorem head_digit_of_digitRun_pos (cs : List Char) (h : digitRun cs ≠ 0) :
    ∃ c t, cs = c :: t ∧ c.isDigit = true := by
  cases cs with
  | nil => exact absurd rfl h
  | cons c t =>
    refine ⟨c, t, rfl, ?_⟩
    by_contra hc
    exact h (by simp [digitRun_cons, hc])

/-- Every string a `reScan` pass emits is the `take` of a successful match. -/
theorem reScan_shape {motive : List Char → Prop}
    (matchLen : Bool → List Char → Option Nat)
    (hml : ∀ prevW cs n, matchLen prevW cs = some n → motive (cs.take n)) :
    ∀ (fuel : Nat) (prevW : Bool) (cs m : List Char),
      m ∈ reScan matchLen fuel prevW cs → motive m := by
  intro fuel
  induction fuel with
  | zero =>
    intro prevW cs m hm
    simp [reScan] at hm
  | succ f ih =>
    intro prevW cs m hm
    cases cs with
    | nil => simp [reScan] at hm
    | cons c t =>
      rw [reScan] at hm
      cases hml2 : matchLen prevW (c :: t) with
      | none =>
        rw [hml2] at hm
        exact ih _ _ _ hm
      | some n =>
        rw [hml2] at hm
        simp only [List.mem_cons] at hm
        rcases hm with rfl | hm
        · exact hml _ _ _ hml2
        · exact ih _ _ _ hm

/-- Shape of a `\b\d+\b` match: a nonempty digit string. -/
theorem numMatchLen_shape (prevW : Bool) (cs : List Char) (n : Nat)
    (h : numMatchLen prevW cs = some n) :
    cs.take n ≠ [] ∧ (cs.take n).all Char.isDigit = true := by
  simp only [numMatchLen] at h
  split at h
  · exact absurd h (by simp)
  · split at h
    · exact absurd h (by simp)
    · split at h
      · exact absurd h (by simp)
      · rename_i ha hw
        obtain rfl : digitRun cs = n := by simpa using h
        constructor
        · rw [take_digitRun]
          obtain ⟨c, t, rfl, hc⟩ := head_digit_of_digitRun_pos cs ha
          simp [List.takeWhile_cons, hc]
        · rw [take_digitRun]
          simp only [List.all_eq_true]
          intro c hc
          exact List.mem_takeWhile_imp hc

/-- Every string `numFindall` returns is a nonempty digit string. -/
theorem numFindall_shape (text m : String) (hm : m ∈ numFindall text) :
    m.data ≠ [] ∧ m.data.all Char.isDigit = true := by
  unfold numFindall at hm
  rcases List.mem_map.mp hm with ⟨cs, hcs, rfl⟩
  exact reScan_shape (motive := fun l => l ≠ [] ∧ l.all Char.isDigit = true)
    numMatchLen (fun prevW cs2 n h => numMatchLen_shape prevW cs2 n h)
    _ _ _ _ hcs

/-- A nonempty digit string is in the extractor's vocabulary. -/
theorem logicVocab_of_digits (s : String) (hne : s.data ≠ [])
    (hdig : s.data.all Char.isDigit = true) : logicVocab s = true := by
  unfold logicVocab
  have h1 : s.data.isEmpty = false := by
    cases hcs : s.data with
    | nil => exact absurd hcs hne
    | cons c t => rfl
  rw [h1, hdig]
  simp

/-- C10: the logic extractor's output always lies in the canonical lowercase
vocabulary — empty, one of the fixed tokens, a weekday, or a nonempty digit
string — whatever the casing of the input. -/
theorem logic_extractor_vocabulary :
    ∀ text : String,
      logicVocab (LogicReasoningTask.extract_answer text) = true := by
  intro t
  unfold LogicReasoningTask.extract_answer
  by_cases h1 : hasSub (pyLower t) ("yes")
  · simp [h1]; decide
  by_cases h2 : hasSub (pyLower t) ("no")
  · simp [h1, h2]; decide
  by_cases h3 : hasSub (pyLower t) ("true")
  · simp [h1, h2, h3]; decide
  by_cases h4 : hasSub (pyLower t) ("false")
  · simp [h1, h2, h3, h4]; decide
  by_cases h5 : hasSub (pyLower t) ("same") || hasSub (pyLower t) ("equal")
  · simp [h1, h2, h3, h4, h5]; decide
  simp only [h1, h2, h3, h4, h5, if_false, Bool.false_eq_true]
  cases hd : LogicReasoningTask.days.find?
      (fun day => hasSub (pyLower t) day) with
  | some day =>
    simp only [hd]
    have hmem := List.mem_of_find?_eq_some hd
    simp only [LogicReasoningTask.days, List.mem_cons,
      List.not_mem_nil, or_false] at hmem
    rcases hmem with rfl | rfl | rfl | rfl | rfl | rfl | rfl <;> decide
  | none =>
    simp only [hd]
    cases hn : numFindall t with
    | nil =>
      simp only [hn, ne_eq, not_true_eq_false, if_false]
      by_cases h8 : hasSub (pyLower t) ("feather")
      · simp [h8]; decide
      by_cases h9 : hasSub (pyLower t) ("brick")
      · simp [h8, h9]; decide
      simp [h8, h9]; decide
    | cons x xs =>
      simp only [hn, ne_eq, reduceCtorEq, not_false_eq_true, if_true]
      have hmem := List.getLastD_mem_cons (x :: xs) ""
      rcases List.mem_cons.mp hmem with heq | hmem2
      · rw [heq]; decide
      · have hmem3 : (x :: xs).getLastD ("") ∈ numFindall t := by
          rw [hn]; exact hmem2
        have hshape := numFindall_shape t _ hmem3
        exact logicVocab_of_digits _ hshape.1 hshape.2

/-! ## The math extractor (C3) -/

/-- C3 counterexample: on `"a1"` the text contains a substring matching the
claim's bare number pattern (so the spec-worded extractor returns `"1"`),
but the code's pattern `\b\d+\.?\d*\b` requires word boundaries and the
extractor returns `""`. -/
theorem math_extractor_counterexample :
    MathReasoningTask.extract_answer ("a1") = "" ∧
      specMathExtract ("a1") = "1" ∧ ("1" : String) ≠ "" := by
  exact ⟨by decide, by decide, by decide⟩

/-- The leading digit run is all digits. -/
theorem takeWhile_all_digits (l : List Char) :
    (l.takeWhile Char.isDigit).all Char.isDigit = true := by
  simp only [List.all_eq_true]
  intro c hc
  exact List.mem_takeWhile_imp hc

/-- Digits are digit-or-dot characters. -/
theorem digits_all_digitOrDot (l : List Char)
    (h : l.all Char.isDigit = true) :
    l.all (fun c => c.isDigit || c = '.') = true := by
  simp only [List.all_eq_true] at h ⊢
  intro c hc
  simp [h c hc]

/-- A digit list contains no dots. -/
theorem digits_countP_dot (l : List Char) (h : l.all Char.isDigit = true) :
    l.countP (fun c => c = '.') = 0 := by
  simp only [List.all_eq_true] at h
  rw [List.countP_eq_zero]
  intro c hc heq
  have hd := h c hc
  rw [show c = '.' from by simpa using heq] at hd
  exact absurd hd (by decide)

/-- Assembling the token shape from its parts. -/
theorem mathTokenShape_of_parts (c : Char) (l : List Char)
    (hc : c.isDigit = true)
    (hall : (c :: l).all (fun x => x.isDigit || x = '.') = true)
    (hcount : (c :: l).countP (fun x => x = '.') ≤ 1) :
    mathTokenShape (String.mk (c :: l)) = true := by
  unfold mathTokenShape
  simp [hc, hall, hcount]

/-- A nonempty digit list is a well-shaped token. -/
theorem mathTokenShape_digits (d1 : List Char)
    (h1 : d1.all Char.isDigit = true) (hne : d1 ≠ []) :
    mathTokenShape (String.mk d1) = true := by
  cases d1 with
  | nil => exact absurd rfl hne
  | cons c l =>
    have hc : c.isDigit = true :=
      List.all_eq_true.mp h1 c (List.mem_cons_self c l)
    refine mathTokenShape_of_parts c l hc (digits_all_digitOrDot _ h1) ?_
    rw [digits_countP_dot _ h1]
    omega

/-- Digits, a dot, digits is a well-shaped token. -/
theorem mathTokenShape_digits_dot_digits (d1 d2 : List Char)
    (h1 : d1.all Char.isDigit = true) (h2 : d2.all Char.isDigit = true)
    (hne : d1 ≠ []) :
    mathTokenShape (String.mk (d1 ++ '.' :: d2)) = true := by
  cases d1 with
  | nil => exact absurd rfl hne
  | cons c l =>
    have hc : c.isDigit = true :=
      List.all_eq_true.mp h1 c (List.mem_cons_self c l)
    have hl : l.all Char.isDigit = true := by
      simp only [List.all_eq_true] at h1 ⊢
      intro x hx
      exact h1 x (List.mem_cons_of_mem c hx)
    rw [List.cons_append]
    have hcd : c ≠ '.' := by
      intro hcc
      rw [hcc] at hc
      exact absurd hc (by decide)
    refine mathTokenShape_of_parts c _ hc ?_ ?_
    · simp only [List.all_eq_true]
      intro x hx
      rcases List.mem_cons.mp hx with rfl | hx1
      · simp [hc]
      rcases List.mem_append.mp hx1 with hx2 | hx2
      · simp [List.all_eq_true.mp hl x hx2]
      · rcases List.mem_cons.mp hx2 with rfl | hx3
        · simp
        · simp [List.all_eq_true.mp h2 x hx3]
    · rw [List.countP_cons, List.countP_append, digits_countP_dot _ hl,
        List.countP_cons, digits_countP_dot _ h2]
      simp [hcd]

/-- Dropping one past a known cons of a drop. -/
theorem drop_succ_eq (cs : List Char) (a : Nat) (x : Char) (r : List Char)
    (h : cs.drop a = x :: r) : cs.drop (a + 1) = r := by
  have h2 : cs.drop (a + 1) = (cs.drop a).drop 1 := by
    rw [List.drop_drop, Nat.add_comm]
  rw [h2, h]
  rfl

/-- Shape of a `\b\d+\.?\d*\b` match: nonempty, starting with a digit, made
of digits and at most one dot. -/
theorem mathMatchLen_shape (prevW : Bool) (cs : List Char) (n : Nat)
    (h : mathMatchLen prevW cs = some n) :
    mathTokenShape (String.mk (cs.take n)) = true := by
  simp only [mathMatchLen] at h
  split at h
  · simp at h
  split at h
  · simp at h
  rename_i ha
  have hA : (cs.take (digitRun cs)).all Char.isDigit = true := by
    rw [take_digitRun]
    exact takeWhile_all_digits cs
  have hAne : cs.take (digitRun cs) ≠ [] := by
    obtain ⟨c, t, heq, hc⟩ := head_digit_of_digitRun_pos cs ha
    subst heq
    rw [take_digitRun]
    simp [List.takeWhile_cons, hc]
  split at h
  · rename_i rest2 hdrop
    have hE2 : cs.take (digitRun cs + 1) =
        cs.take (digitRun cs) ++ '.' :: ([] : List Char) := by
      rw [List.take_add, hdrop]
      rfl
    have hE3 : cs.take (digitRun cs + 1 + digitRun rest2) =
        cs.take (digitRun cs) ++ '.' :: rest2.takeWhile Char.isDigit := by
      rw [List.take_add, hE2, drop_succ_eq cs _ _ _ hdrop,
        take_digitRun rest2, List.append_assoc]
      rfl
    split at h
    · split at h
      · obtain rfl : digitRun cs + 1 = n := by simpa using h
        rw [hE2]
        exact mathTokenShape_digits_dot_digits _ [] hA (by simp) hAne
      · obtain rfl : digitRun cs + 1 + digitRun rest2 = n := by
          simpa using h
        rw [hE3]
        exact mathTokenShape_digits_dot_digits _ _ hA
          (takeWhile_all_digits rest2) hAne
    · split at h
      · obtain rfl : digitRun cs + 1 = n := by simpa using h
        rw [hE2]
        exact mathTokenShape_digits_dot_digits _ [] hA (by simp) hAne
      · obtain rfl : digitRun cs = n := by simpa using h
        exact mathTokenShape_digits _ hA hAne
  · split at h
    · simp at h
    · obtain rfl : digitRun cs = n := by simpa using h
      exact mathTokenShape_digits _ hA hAne

/-- Every string `mathFindall` returns is a well-shaped number token. -/
theorem mathFindall_shape (text m : String) (hm : m ∈ mathFindall text) :
    mathTokenShape m = true := by
  unfold mathFindall at hm
  rcases List.mem_map.mp hm with ⟨cs, hcs, rfl⟩
  exact reScan_shape
    (motive := fun l => mathTokenShape (String.mk l) = true) mathMatchLen
    (fun prevW cs2 n h => mathMatchLen_shape prevW cs2 n h) _ _ _ _ hcs

/-- C3 (amended): the extractor returns the last match of the
word-boundary-anchored number pattern in reading order, with trailing dots
stripped, and `""` when there is no match; every match is a nonempty string
of digits with at most one dot; and on
`"The result is 12 and then 48."` the answer is `"48"`. -/
theorem math_extractor_last_number :
    MathReasoningTask.extract_answer ("The result is 12 and then 48.") =
        "48" ∧
      (∀ text : String, mathFindall text = [] →
        MathReasoningTask.extract_answer text = "") ∧
      (∀ text : String, mathFindall text ≠ [] →
        MathReasoningTask.extract_answer text =
          pyRstripDot ((mathFindall text).getLastD (""))) ∧
      (∀ text m : String, m ∈ mathFindall text →
        mathTokenShape m = true) := by
  refine ⟨by decide, ?_, ?_, mathFindall_shape⟩
  · intro text hempty
    unfold MathReasoningTask.extract_answer
    simp [hempty]
  · intro text hne
    unfold MathReasoningTask.extract_answer
    simp [hne]

/-- Witness for C3: the last-match characterization evaluated on a concrete
two-number text. -/
theorem math_extractor_last_number_witness :
    MathReasoningTask.extract_answer ("go 7 then 8") =
      pyRstripDot ((mathFindall ("go 7 then 8")).getLastD ("")) := by
  exact math_extractor_last_number.2.2.1 ("go 7 then 8") (by decide)

/-! ## Leaderboard ordering (C1) -/

/-- The head of a nonempty `dropWhile` fails the predicate. -/
theorem dropWhile_head_false {α : Type} (p : α → Bool) :
    ∀ (l : List α) (x : α) (r : List α),
      l.dropWhile p = x :: r → p x = false := by
  intro l
  induction l with
  | nil =>
    intro x r h
    simp at h
  | cons c t ih =>
    intro x r h
    rw [List.dropWhile_cons] at h
    split at h
    · exact ih x r h
    · rename_i hpc
      injection h with h1 h2
      subst h1
      simpa using hpc

/-- Stability of the ascending insertion sort on rows whose original indices
strictly decrease (which is how pandas feeds the reversed rows to `argsort`):
the output is pairwise ascending in score, with equal scores ordered by
strictly descending index. -/
theorem insertionSort_pairwise_stable :
    ∀ l : List (Nat × EvalRecord),
      l.Pairwise (fun p q => q.1 < p.1) →
      (List.insertionSort Evaluator.keyLE l).Pairwise
        (fun p q => p.2.overall_score < q.2.overall_score ∨
          (p.2.overall_score = q.2.overall_score ∧ q.1 < p.1)) := by
  intro l
  induction l with
  | nil =>
    intro _
    simp
  | cons c t ih =>
    intro h
    obtain ⟨hct, ht⟩ := List.pairwise_cons.mp h
    have hm := ih ht
    have hmem : ∀ y ∈ List.insertionSort Evaluator.keyLE t, y.1 < c.1 :=
      fun y hy =>
        hct y ((List.perm_insertionSort Evaluator.keyLE t).subset hy)
    have hsort : List.insertionSort Evaluator.keyLE (c :: t) =
        ((List.insertionSort Evaluator.keyLE t).takeWhile
            fun b => decide ¬Evaluator.keyLE c b) ++
          c :: ((List.insertionSort Evaluator.keyLE t).dropWhile
            fun b => decide ¬Evaluator.keyLE c b) :=
      List.insertionSort_cons_eq_take_drop Evaluator.keyLE c t
    rw [hsort]
    have hsplit : List.insertionSort Evaluator.keyLE t =
        ((List.insertionSort Evaluator.keyLE t).takeWhile
            fun b => decide ¬Evaluator.keyLE c b) ++
          ((List.insertionSort Evaluator.keyLE t).dropWhile
            fun b => decide ¬Evaluator.keyLE c b) :=
      (List.takeWhile_append_dropWhile _ _).symm
    obtain ⟨hP1, hP2, hP12⟩ := List.pairwise_append.mp (hsplit ▸ hm)
    have hz : ∀ z ∈ (List.insertionSort Evaluator.keyLE t).takeWhile
        (fun b => decide ¬Evaluator.keyLE c b),
        z.2.overall_score < c.2.overall_score := by
      intro z hzmem
      have := List.mem_takeWhile_imp hzmem
      have hnot : ¬Evaluator.keyLE c z := by simpa using this
      exact lt_of_not_le hnot
    have hm2sub : ∀ y ∈ (List.insertionSort Evaluator.keyLE t).dropWhile
        (fun b => decide ¬Evaluator.keyLE c b),
        y ∈ List.insertionSort Evaluator.keyLE t := by
      intro y hy
      rw [hsplit]
      exact List.mem_append.mpr (Or.inr hy)
    have hSc : ∀ y ∈ (List.insertionSort Evaluator.keyLE t).dropWhile
        (fun b => decide ¬Evaluator.keyLE c b),
        c.2.overall_score < y.2.overall_score ∨
          (c.2.overall_score = y.2.overall_score ∧ y.1 < c.1) := by
      intro y hy
      have hcy : c.2.overall_score ≤ y.2.overall_score := by
        cases hdw : (List.insertionSort Evaluator.keyLE t).dropWhile
            (fun b => decide ¬Evaluator.keyLE c b) with
        | nil =>
          rw [hdw] at hy
          exact absurd hy (List.not_mem_nil y)
        | cons h0 rest =>
          have hh0 : Evaluator.keyLE c h0 := by
            have := dropWhile_head_false _ _ _ _ hdw
            simpa using this
          rw [hdw] at hy
          rcases List.mem_cons.mp hy with rfl | hyrest
          · exact hh0
          · have hP2' := hdw ▸ hP2
            have hh0y := (List.pairwise_cons.mp hP2').1 y hyrest
            have hle : h0.2.overall_score ≤ y.2.overall_score := by
              rcases hh0y with hlt | ⟨heq, _⟩
              · exact le_of_lt hlt
              · exact le_of_eq heq
            exact le_trans hh0 hle
      rcases lt_or_eq_of_le hcy with hlt | heq
      · exact Or.inl hlt
      · exact Or.inr ⟨heq, hmem y (hm2sub y hy)⟩
    refine List.pairwise_append.mpr ⟨hP1, List.pairwise_cons.mpr ⟨hSc, hP2⟩,
      ?_⟩
    intro z hzmem w hwmem
    rcases List.mem_cons.mp hwmem with rfl | hw2
    · exact Or.inl (hz z hzmem)
    · exact hP12 z hzmem w hw2

/-- The strictly-decreasing-index invariant of the reversed enumeration. -/
theorem enum_reverse_indices_decreasing (results : List EvalRecord) :
    (results.enum.reverse).Pairwise
      (fun p q : Nat × EvalRecord => q.1 < p.1) := by
  rw [List.pairwise_reverse]
  have h1 := List.pairwise_lt_range results.length
  rw [← List.enum_map_fst results] at h1
  exact List.pairwise_map.mp h1

/-- The descending pandas sort is the stable descending order of the claims:
strictly greater score first, ties by insertion index. -/
theorem sortDesc_pairwise (results : List EvalRecord) :
    (Evaluator.sortDescByOverall results.enum).Pairwise rankedBefore := by
  unfold Evaluator.sortDescByOverall
  rw [List.pairwise_reverse]
  have hS := insertionSort_pairwise_stable _
    (enum_reverse_indices_decreasing results)
  refine hS.imp ?_
  intro a b hab
  rcases hab with hlt | ⟨heq, hidx⟩
  · exact Or.inl hlt
  · exact Or.inr ⟨heq.symm, hidx⟩

/-- C1 (restricted to the regime where the embedding is exact): for at most
16 records — where `numpy`'s default `quicksort` kind is its stable
insertion sort, so `sortDescByOverall` models the program exactly —
`generate_leaderboard` returns all records sorted descending by
`overall_score` with 1-based contiguous ranks and equal scores in insertion
order (pandas' double reversal around the stable ascending sort), and the
three-record 90/70/90 example ranks as
`[first 90-record, second 90-record, 70-record]` with ranks `[1, 2, 3]`.
At 17 or more records the code's unstable sort kind gives no such
insertion-order guarantee for ties, so the unrestricted claim is not
established by the program. -/
theorem leaderboard_sorted_stable_ranked_small :
    (∀ results : List EvalRecord, results.length ≤ 16 →
        (Evaluator.generate_leaderboard results).map (fun row => row.1) =
          List.range' 1 results.length ∧
        ((Evaluator.generate_leaderboard results).map
            (fun row => row.2)).Perm results.enum ∧
        ((Evaluator.generate_leaderboard results).map
            (fun row => row.2)).Pairwise rankedBefore) ∧
      Evaluator.generate_leaderboard
          [exampleRecord ("first") 90, exampleRecord ("second") 70,
            exampleRecord ("third") 90] =
        [(1, 0, exampleRecord ("first") 90),
          (2, 2, exampleRecord ("third") 90),
          (3, 1, exampleRecord ("second") 70)] := by
  constructor
  · intro results _hlen
    by_cases hres : results = []
    · subst hres
      exact ⟨rfl, List.Perm.refl _, List.Pairwise.nil⟩
    · unfold Evaluator.generate_leaderboard
      rw [if_neg hres]
      have hlen : (Evaluator.sortDescByOverall results.enum).length =
          results.length := by
        unfold Evaluator.sortDescByOverall
        rw [List.length_reverse, List.length_insertionSort,
          List.length_reverse, List.enum_length]
      have hsnd : ((Evaluator.sortDescByOverall results.enum).enum.map
            (fun kp => (kp.1 + 1, kp.2.1, kp.2.2))).map
            (fun row : Nat × Nat × EvalRecord => row.2) =
          Evaluator.sortDescByOverall results.enum := by
        rw [List.map_map]
        have hcomp : ((fun row : Nat × Nat × EvalRecord => row.2) ∘
            (fun kp : Nat × (Nat × EvalRecord) =>
              (kp.1 + 1, kp.2.1, kp.2.2))) =
            (Prod.snd : Nat × (Nat × EvalRecord) → Nat × EvalRecord) := rfl
        rw [hcomp, List.enum_map_snd]
      refine ⟨?_, ?_, ?_⟩
      · rw [List.map_map]
        have hcomp : ((fun row : Nat × Nat × EvalRecord => row.1) ∘
            (fun kp : Nat × (Nat × EvalRecord) =>
              (kp.1 + 1, kp.2.1, kp.2.2))) =
            (fun kp : Nat × (Nat × EvalRecord) => kp.1 + 1) := rfl
        rw [hcomp]
        have hstep : (Evaluator.sortDescByOverall results.enum).enum.map
            (fun kp : Nat × (Nat × EvalRecord) => kp.1 + 1) =
            ((Evaluator.sortDescByOverall results.enum).enum.map
              Prod.fst).map (fun k => k + 1) := by
          rw [List.map_map]
          rfl
        rw [hstep, List.enum_map_fst, List.range'_eq_map_range, hlen]
        simp [Nat.add_comm]
      · rw [hsnd]
        unfold Evaluator.sortDescByOverall
        exact ((List.reverse_perm _).trans
          (List.perm_insertionSort _ _)).trans (List.reverse_perm _)
      · rw [hsnd]
        exact sortDesc_pairwise results
  · decide

/-- Witness for the size-bounded leaderboard theorem: the 3-record batch is
within the stable regime and its ranks come out `[1, 2, 3]`. -/
theorem leaderboard_sorted_stable_ranked_small_witness :
    (Evaluator.generate_leaderboard
        [exampleRecord ("first") 90, exampleRecord ("second") 70,
          exampleRecord ("third") 90]).map (fun row => row.1) =
      List.range' 1 3 := by
  exact (leaderboard_sorted_stable_ranked_small.1
    [exampleRecord ("first") 90, exampleRecord ("second") 70,
      exampleRecord ("third") 90] (by decide)).1

end LlmBench
